import Mathlib

/-!
Verification of the presence/stats subsystem of the Radio Africa backend
(`src/main.py`, endpoints `POST /api/heartbeat` and `GET /api/stats`,
collections `session` and `sitestat` from `src/schemas.py`).

The document store is modelled shallowly: each collection is a list of
documents, `find_one` returns the first matching document, and
`update_one` with `upsert=True` updates the first matching document in
place or inserts a fresh one when no document matches.  Timestamps are
integers (an injectable clock); every operation takes the current time
`now` as an explicit argument, mirroring `datetime.now(timezone.utc)`.
-/

namespace Presence

/-- A document of the `session` collection (`src/schemas.py`, class
`Session`, plus the `created_at` field written by the `heartbeat`
upsert in `src/main.py`). -/
structure Session where
  visitor_id : String
  last_seen : Int
  created_at : Int
deriving DecidableEq, Repr

/-- A document of the `sitestat` collection (`src/schemas.py`, class
`Sitestat`, plus the `created_at` field written on insert in
`src/main.py`). -/
structure Sitestat where
  key : String
  total_views : Int
  created_at : Int
deriving DecidableEq, Repr

/-- The document store restricted to the two collections the
presence/stats subsystem touches. -/
structure Store where
  session : List Session
  sitestat : List Sitestat
deriving DecidableEq, Repr

/-- The empty store (cold start: no documents in either collection). -/
def emptyStore : Store := ⟨[], []⟩

/-- Model of `db["session"].update_one({"visitor_id": vid}, {"$set":
{"visitor_id": vid, "last_seen": now}, "$setOnInsert": {"created_at":
now}}, upsert=True)`
(`src/main.py` lines 109-113): update the first document matching
`visitor_id = vid`, setting `visitor_id` and `last_seen`; when no document
matches, insert a fresh document whose `created_at` is also `now`. -/
def sessionUpsert (vid : String) (now : Int) : List Session → List Session
  | [] => [⟨vid, now, now⟩]
  | d :: rest =>
    if d.visitor_id = vid then ⟨vid, now, d.created_at⟩ :: rest
    else d :: sessionUpsert vid now rest

/-- Model of `db["sitestat"].update_one({"key": "global"}, {"$inc":
{"total_views": 1}, "$setOnInsert": {"key": "global", "created_at":
now}}, upsert=True)`
(`src/main.py` lines 117-121): increment `total_views` of the first
document with `key = "global"`, or insert `{key: "global", total_views: 1,
created_at: now}` when none matches. -/
def sitestatInc (now : Int) : List Sitestat → List Sitestat
  | [] => [⟨"global", 1, now⟩]
  | d :: rest =>
    if d.key = "global" then ⟨d.key, d.total_views + 1, d.created_at⟩ :: rest
    else d :: sitestatInc now rest

/-- Handler `heartbeat` (`src/main.py` lines 102-123): read the previous session
for `vid`, upsert the session with `last_seen = now`, and, when no previous
session existed, increment the global `sitestat` counter. -/
def heartbeat (vid : String) (now : Int) (st : Store) : Store :=
  let prev := st.session.find? (fun s => s.visitor_id = vid)
  let session1 := sessionUpsert vid now st.session
  let sitestat1 :=
    if prev = none then sitestatInc now st.sitestat else st.sitestat
  ⟨session1, sitestat1⟩

/-- Errors surfaced to the HTTP caller.  `invalidInput` is the FastAPI /
pydantic request-validation failure (`HeartbeatIn` requires the field
`visitor_id: str`, `src/main.py` lines 98-99). -/
inductive Err where
  | invalidInput
deriving DecidableEq, Repr

/-- The `POST /api/heartbeat` endpoint including request validation: a
body with the `visitor_id` field absent (or null) is rejected by pydantic
before `heartbeat` runs; any string value — including the empty string,
which `visitor_id: str` does not rule out — is passed through. -/
def heartbeatEndpoint (body : Option String) (now : Int) (st : Store) :
    Except Err Store :=
  match body with
  | none => .error .invalidInput
  | some vid => .ok (heartbeat vid now st)

/-- Handler `get_stats` (`src/main.py` lines 126-135): `active` is
`db["session"].count_documents({"last_seen": {"$gte": since}})` with
`since = now - window_seconds`, and `total` is the global counter's
`total_views`, defaulting to 0 when the counter document is absent. -/
def get_stats (window_seconds : Int) (now : Int) (st : Store) : Int × Int :=
  let since := now - window_seconds
  let active : Int := (st.session.filter (fun s => since ≤ s.last_seen)).length
  let stat := st.sitestat.find? (fun d => d.key = "global")
  let total := match stat with
    | some d => d.total_views
    | none => 0
  (active, total)

/-- Request `GET /api/stats` with the `window_seconds` query parameter
omitted: the source declares `window_seconds: int = 120`. -/
def get_statsDefault (now : Int) (st : Store) : Int × Int :=
  get_stats 120 now st

/-- The `get_stats` handler as a state transformer over the store, making explicit
that the request performs only the two reads and returns the store it was
given (`src/main.py` lines 126-135 contain no write operation). -/
def get_statsOp (window_seconds : Int) (now : Int) (st : Store) :
    Store × (Int × Int) :=
  (st, get_stats window_seconds now st)

/-- Number of `session` documents whose `visitor_id` is `v`. -/
def countSessions (v : String) (st : Store) : Nat :=
  (st.session.filter (fun s => s.visitor_id = v)).length

/-- Model of `db["session"].find_one({"visitor_id": v})`. -/
def findSession (v : String) (st : Store) : Option Session :=
  st.session.find? (fun s => s.visitor_id = v)

/-- The `total` value a `sitestat` collection yields: the first global
document's `total_views`, or 0 when none exists. -/
def totalOf (ss : List Sitestat) : Int :=
  match ss.find? (fun d => d.key = "global") with
  | some d => d.total_views
  | none => 0

/-- The value `get_stats` reports as `total` on a store. -/
def totalViews (st : Store) : Int :=
  totalOf st.sitestat

/-- A sequence of heartbeats for one visitor at the given times. -/
def heartbeatSeq (vid : String) (times : List Int) (st : Store) : Store :=
  times.foldl (fun s t => heartbeat vid t s) st

/-- The states reachable from the empty store by sequential (fully
completed, non-interleaved) heartbeat calls. -/
inductive Reachable : Store → Prop where
  | empty : Reachable emptyStore
  | step (v : String) (t : Int) {st : Store} :
      Reachable st → Reachable (heartbeat v t st)

/-- The state invariant maintained by sequential heartbeats: at most one
`sitestat` document, every `sitestat` document keyed `"global"`, the
reported total equal to the number of session records, and at most one
session record per `visitor_id`. -/
def StoreInv (st : Store) : Prop :=
  st.sitestat.length ≤ 1 ∧
  (∀ d ∈ st.sitestat, d.key = "global") ∧
  totalViews st = (st.session.length : Int) ∧
  (∀ w, countSessions w st ≤ 1)

/-- Program counter of one in-flight heartbeat request, split at the
store-operation boundaries of `heartbeat` (`src/main.py`): the
`find_one` read (line 108), the session `update_one` upsert (lines
109-113), and the conditional `sitestat` increment (lines 116-121). -/
inductive Pc where
  | start
  | readDone
  | upsertDone
  | finished
deriving DecidableEq, Repr

/-- Local state of one in-flight heartbeat request: its program counter
and the `prev` value its `find_one` read returned (meaningful once the
counter has passed `readDone`). -/
structure ReqCtx where
  pc : Pc
  prev : Option Session
deriving DecidableEq, Repr

/-- One store-level step of an in-flight heartbeat request for `v` at
time `t`.  Each of the three store operations is individually atomic,
but the scheduler may interleave operations of different requests
between them. -/
def reqStep (v : String) (t : Int) (c : ReqCtx) (st : Store) :
    ReqCtx × Store :=
  match c.pc with
  | .start =>
      (⟨.readDone, st.session.find? (fun s => s.visitor_id = v)⟩, st)
  | .readDone =>
      (⟨.upsertDone, c.prev⟩, ⟨sessionUpsert v t st.session, st.sitestat⟩)
  | .upsertDone =>
      (⟨.finished, c.prev⟩,
       if c.prev = none then ⟨st.session, sitestatInc t st.sitestat⟩ else st)
  | .finished => (c, st)

/-- Joint state of two concurrent heartbeat requests sharing one store. -/
structure RaceState where
  a : ReqCtx
  b : ReqCtx
  store : Store
deriving DecidableEq, Repr

/-- Scheduler step: `true` advances request A (visitor `v`, time `t1`),
`false` advances request B (visitor `v`, time `t2`). -/
def raceStep (v : String) (t1 t2 : Int) (s : RaceState) (choice : Bool) :
    RaceState :=
  if choice then
    let r := reqStep v t1 s.a s.store
    ⟨r.1, s.b, r.2⟩
  else
    let r := reqStep v t2 s.b s.store
    ⟨s.a, r.1, r.2⟩

/-- Run two concurrent heartbeat requests for the same visitor under the
given schedule, starting from store `st`. -/
def raceRun (v : String) (t1 t2 : Int) (sched : List Bool) (st : Store) :
    RaceState :=
  sched.foldl (raceStep v t1 t2) ⟨⟨.start, none⟩, ⟨.start, none⟩, st⟩

/-! ### Lemmas about the store primitives -/

/-- Upserting into a collection with no record for `vid` appends a fresh
record whose two timestamps are both `now`. -/
theorem sessionUpsert_of_find_none (vid : String) (now : Int)
    (l : List Session) (h : l.find? (fun s => s.visitor_id = vid) = none) :
    sessionUpsert vid now l = l ++ [⟨vid, now, now⟩] := by
  induction l with
  | nil => rfl
  | cons d rest ih =>
    by_cases hd : d.visitor_id = vid
    · exact absurd h (by simp [List.find?_cons, hd])
    · rw [List.find?_cons_of_neg _ (by simpa using hd)] at h
      simp [sessionUpsert, hd, ih h]

/-- The record `find_one` sees for `vid` after an upsert for `vid`: the
old record with `last_seen` overwritten if one existed, else the freshly
inserted record. -/
theorem find_sessionUpsert_self (vid : String) (now : Int)
    (l : List Session) :
    (sessionUpsert vid now l).find? (fun s => s.visitor_id = vid) =
      some (match l.find? (fun s => s.visitor_id = vid) with
            | some d => ⟨vid, now, d.created_at⟩
            | none => ⟨vid, now, now⟩) := by
  induction l with
  | nil => simp [sessionUpsert]
  | cons d rest ih =>
    by_cases hd : d.visitor_id = vid
    · simp [sessionUpsert, hd, List.find?_cons]
    · simp only [sessionUpsert, if_neg hd]
      rw [List.find?_cons_of_neg _ (by simpa using hd),
        List.find?_cons_of_neg _ (by simpa using hd), ih]

/-- Number of records for `vid` after an upsert for `vid`: one if there
was none, unchanged otherwise. -/
theorem count_sessionUpsert_self (vid : String) (now : Int)
    (l : List Session) :
    ((sessionUpsert vid now l).filter (fun s => s.visitor_id = vid)).length =
      max 1 (l.filter (fun s => s.visitor_id = vid)).length := by
  induction l with
  | nil => simp [sessionUpsert]
  | cons d rest ih =>
    by_cases hd : d.visitor_id = vid
    · simp [sessionUpsert, hd, List.filter_cons]
    · simp [sessionUpsert, hd, List.filter_cons, ih]

/-- An upsert for `vid` leaves the records of every other visitor
untouched. -/
theorem count_sessionUpsert_other (vid w : String) (now : Int)
    (l : List Session) (hw : w ≠ vid) :
    ((sessionUpsert vid now l).filter (fun s => s.visitor_id = w)).length =
      (l.filter (fun s => s.visitor_id = w)).length := by
  have hvw : ¬ vid = w := fun h => hw h.symm
  induction l with
  | nil => simp [sessionUpsert, hvw]
  | cons d rest ih =>
    by_cases hd : d.visitor_id = vid
    · have hdw : ¬ d.visitor_id = w := fun h => hvw (hd.symm.trans h)
      simp [sessionUpsert, hd, List.filter_cons, hdw, hvw]
    · simp only [sessionUpsert, if_neg hd, List.filter_cons]
      split
      · simp [ih]
      · exact ih

/-- An upsert grows the collection by one record exactly when no record
for `vid` existed. -/
theorem length_sessionUpsert (vid : String) (now : Int) (l : List Session) :
    (sessionUpsert vid now l).length =
      if l.find? (fun s => s.visitor_id = vid) = none
      then l.length + 1 else l.length := by
  induction l with
  | nil => simp [sessionUpsert]
  | cons d rest ih =>
    by_cases hd : d.visitor_id = vid
    · simp [sessionUpsert, hd, List.find?_cons]
    · rw [List.find?_cons_of_neg _ (by simpa using hd)]
      simp only [sessionUpsert, if_neg hd, List.length_cons, ih]
      split <;> rfl

/-- Every record in an upserted collection is the fresh insert, the
updated first match, or an untouched old record. -/
theorem mem_sessionUpsert (vid : String) (now : Int) (l : List Session)
    (x : Session) (hx : x ∈ sessionUpsert vid now l) :
    x = ⟨vid, now, now⟩ ∨ (∃ d ∈ l, x = ⟨vid, now, d.created_at⟩) ∨ x ∈ l := by
  induction l with
  | nil => simp_all [sessionUpsert]
  | cons d rest ih =>
    by_cases hd : d.visitor_id = vid
    · simp only [sessionUpsert, if_pos hd, List.mem_cons] at hx
      rcases hx with hx | hx
      · exact Or.inr (Or.inl ⟨d, List.mem_cons_self d rest, hx⟩)
      · exact Or.inr (Or.inr (List.mem_cons_of_mem d hx))
    · simp only [sessionUpsert, if_neg hd, List.mem_cons] at hx
      rcases hx with hx | hx
      · exact Or.inr (Or.inr (hx ▸ List.mem_cons_self d rest))
      · rcases ih hx with h1 | ⟨e, he, hxe⟩ | h3
        · exact Or.inl h1
        · exact Or.inr (Or.inl ⟨e, List.mem_cons_of_mem d he, hxe⟩)
        · exact Or.inr (Or.inr (List.mem_cons_of_mem d h3))

/-- The `sitestat` increment raises the reported total by exactly one,
whatever the collection's contents. -/
theorem totalOf_sitestatInc (t : Int) (ss : List Sitestat) :
    totalOf (sitestatInc t ss) = totalOf ss + 1 := by
  induction ss with
  | nil => simp [sitestatInc, totalOf]
  | cons d rest ih =>
    by_cases hd : d.key = "global"
    · simp [sitestatInc, hd, totalOf, List.find?_cons]
    · simp only [sitestatInc, if_neg hd, totalOf] at ih ⊢
      rw [List.find?_cons_of_neg _ (by simpa using hd),
        List.find?_cons_of_neg _ (by simpa using hd)]
      exact ih

/-- On a collection whose documents are all keyed `"global"`, the
increment yields one document if the collection was empty and keeps the
length otherwise. -/
theorem length_sitestatInc (t : Int) (ss : List Sitestat)
    (h : ∀ d ∈ ss, d.key = "global") :
    (sitestatInc t ss).length = max 1 ss.length := by
  cases ss with
  | nil => rfl
  | cons d rest =>
    have hd : d.key = "global" := h d (List.mem_cons_self d rest)
    simp [sitestatInc, hd]

/-- The increment keeps every document keyed `"global"` when the input
documents all were. -/
theorem keys_sitestatInc (t : Int) (ss : List Sitestat)
    (h : ∀ d ∈ ss, d.key = "global") :
    ∀ d ∈ sitestatInc t ss, d.key = "global" := by
  induction ss with
  | nil => simp [sitestatInc]
  | cons d rest ih =>
    by_cases hd : d.key = "global"
    · intro e he
      simp only [sitestatInc, if_pos hd, List.mem_cons] at he
      rcases he with he | he
      · simp [he, hd]
      · exact h e (List.mem_cons_of_mem d he)
    · exact absurd (h d (List.mem_cons_self d rest)) hd

/-- A `find_one` miss is the same as the filter for the key being empty. -/
theorem find_none_iff_count_zero (vid : String) (l : List Session) :
    l.find? (fun s => s.visitor_id = vid) = none ↔
      (l.filter (fun s => s.visitor_id = vid)).length = 0 := by
  simp [List.find?_eq_none, List.length_eq_zero, List.filter_eq_nil_iff]

/-! ### Lemmas about `heartbeat` -/

/-- The session collection after a heartbeat is the upserted one. -/
theorem heartbeat_session (v : String) (t : Int) (st : Store) :
    (heartbeat v t st).session = sessionUpsert v t st.session := rfl

/-- The sitestat collection after a heartbeat is incremented exactly when
the preceding `find_one` read missed. -/
theorem heartbeat_sitestat (v : String) (t : Int) (st : Store) :
    (heartbeat v t st).sitestat =
      if findSession v st = none then sitestatInc t st.sitestat
      else st.sitestat := rfl

/-- A `find_one` miss for a visitor is the same as the visitor having no
session record. -/
theorem findSession_eq_none_iff (v : String) (st : Store) :
    findSession v st = none ↔ countSessions v st = 0 :=
  find_none_iff_count_zero v st.session

/-- A first-seen heartbeat raises the reported total by one. -/
theorem totalViews_heartbeat_fresh (v : String) (t : Int) (st : Store)
    (h : findSession v st = none) :
    totalViews (heartbeat v t st) = totalViews st + 1 := by
  unfold totalViews
  rw [heartbeat_sitestat, if_pos h]
  exact totalOf_sitestatInc t st.sitestat

/-- A repeat heartbeat leaves the reported total unchanged. -/
theorem totalViews_heartbeat_seen (v : String) (t : Int) (st : Store)
    (h : findSession v st ≠ none) :
    totalViews (heartbeat v t st) = totalViews st := by
  unfold totalViews
  rw [heartbeat_sitestat, if_neg h]

/-- The reported total never decreases across a heartbeat. -/
theorem totalViews_heartbeat_mono (v : String) (t : Int) (st : Store) :
    totalViews st ≤ totalViews (heartbeat v t st) := by
  by_cases h : findSession v st = none
  · rw [totalViews_heartbeat_fresh v t st h]
    omega
  · rw [totalViews_heartbeat_seen v t st h]

/-- Session count of the heartbeating visitor after the heartbeat. -/
theorem countSessions_heartbeat_self (v : String) (t : Int) (st : Store) :
    countSessions v (heartbeat v t st) = max 1 (countSessions v st) := by
  unfold countSessions
  rw [heartbeat_session]
  exact count_sessionUpsert_self v t st.session

/-- Session count of any other visitor is untouched by the heartbeat. -/
theorem countSessions_heartbeat_other (v w : String) (t : Int) (st : Store)
    (hw : w ≠ v) :
    countSessions w (heartbeat v t st) = countSessions w st := by
  unfold countSessions
  rw [heartbeat_session]
  exact count_sessionUpsert_other v w t st.session hw

/-- Total number of session records after a heartbeat: one more on a
first-seen visitor, unchanged otherwise. -/
theorem length_heartbeat_session (v : String) (t : Int) (st : Store) :
    (heartbeat v t st).session.length =
      if findSession v st = none then st.session.length + 1
      else st.session.length := by
  rw [heartbeat_session]
  exact length_sessionUpsert v t st.session

/-- Peeling one call off a heartbeat sequence. -/
theorem heartbeatSeq_cons (v : String) (t : Int) (ts : List Int)
    (st : Store) :
    heartbeatSeq v (t :: ts) st = heartbeatSeq v ts (heartbeat v t st) := rfl

/-- Once a visitor has exactly one session record, any further sequence
of its heartbeats keeps exactly one record and never changes the total. -/
theorem heartbeatSeq_stable (v : String) (ts : List Int) (st : Store)
    (h : countSessions v st = 1) :
    countSessions v (heartbeatSeq v ts st) = 1 ∧
    totalViews (heartbeatSeq v ts st) = totalViews st := by
  induction ts generalizing st with
  | nil => exact ⟨h, rfl⟩
  | cons t ts ih =>
    have hne : findSession v st ≠ none := fun hn =>
      by rw [findSession_eq_none_iff] at hn; omega
    have h1 : countSessions v (heartbeat v t st) = 1 := by
      rw [countSessions_heartbeat_self, h]
      omega
    have hrec := ih (heartbeat v t st) h1
    rw [heartbeatSeq_cons]
    exact ⟨hrec.1, hrec.2.trans (totalViews_heartbeat_seen v t st hne)⟩

/-- A heartbeat preserves the store invariant. -/
theorem heartbeat_preserves_inv (v : String) (t : Int) (st : Store)
    (h : StoreInv st) : StoreInv (heartbeat v t st) := by
  obtain ⟨hlen, hkeys, htot, hcnt⟩ := h
  have hcounts : ∀ w, countSessions w (heartbeat v t st) ≤ 1 := by
    intro w
    by_cases hw : w = v
    · subst hw
      rw [countSessions_heartbeat_self]
      have := hcnt w
      omega
    · rw [countSessions_heartbeat_other v w t st hw]
      exact hcnt w
  by_cases hv : findSession v st = none
  · refine ⟨?_, ?_, ?_, hcounts⟩
    · rw [heartbeat_sitestat, if_pos hv,
        length_sitestatInc t st.sitestat hkeys]
      omega
    · rw [heartbeat_sitestat, if_pos hv]
      exact keys_sitestatInc t st.sitestat hkeys
    · rw [totalViews_heartbeat_fresh v t st hv,
        length_heartbeat_session, if_pos hv, htot]
      push_cast
      ring
  · refine ⟨?_, ?_, ?_, hcounts⟩
    · rw [heartbeat_sitestat, if_neg hv]
      exact hlen
    · rw [heartbeat_sitestat, if_neg hv]
      exact hkeys
    · rw [totalViews_heartbeat_seen v t st hv,
        length_heartbeat_session, if_neg hv]
      exact htot

/-- The empty store satisfies the invariant. -/
theorem storeInv_empty : StoreInv emptyStore := by
  refine ⟨by simp [emptyStore], by simp [emptyStore], rfl, ?_⟩
  intro w
  simp [countSessions, emptyStore]

/-- Every state reachable by sequential heartbeats satisfies the
invariant. -/
theorem reachable_storeInv (st : Store) (h : Reachable st) : StoreInv st := by
  induction h with
  | empty => exact storeInv_empty
  | step v t hr ih => exact heartbeat_preserves_inv v t _ ih

/-! ### The claims -/

/-- C1: for every visitor `v`, running `N ≥ 1` sequential heartbeats for
`v` from any state with no session record for `v` leaves exactly one
session record for `v` and raises `total_views` by exactly one; every
call after the first leaves `total_views` unchanged. -/
theorem heartbeat_sequence_counts_once (v : String) (st : Store) (t : Int)
    (ts : List Int) (h : countSessions v st = 0) :
    countSessions v (heartbeatSeq v (t :: ts) st) = 1 ∧
    totalViews (heartbeatSeq v (t :: ts) st) = totalViews st + 1 ∧
    ∀ u : Int, totalViews (heartbeat v u (heartbeatSeq v (t :: ts) st)) =
      totalViews (heartbeatSeq v (t :: ts) st) := by
  have h0 : findSession v st = none := (findSession_eq_none_iff v st).mpr h
  have h1 : countSessions v (heartbeat v t st) = 1 := by
    rw [countSessions_heartbeat_self, h]
    omega
  have hTV := totalViews_heartbeat_fresh v t st h0
  have hs := heartbeatSeq_stable v ts (heartbeat v t st) h1
  rw [heartbeatSeq_cons]
  refine ⟨hs.1, hs.2.trans hTV, ?_⟩
  intro u
  apply totalViews_heartbeat_seen
  intro hn
  rw [findSession_eq_none_iff] at hn
  have := hs.1
  omega

/-- C1 witness: three heartbeats for a fresh visitor on the empty store
leave one session record and a total one above the initial total. -/
theorem heartbeat_sequence_counts_once_witness :
    countSessions "a" (heartbeatSeq "a" [0, 1, 2] emptyStore) = 1 ∧
    totalViews (heartbeatSeq "a" [0, 1, 2] emptyStore) =
      totalViews emptyStore + 1 := by
  have h := heartbeat_sequence_counts_once "a" emptyStore 0 [1, 2] (by decide)
  exact ⟨h.1, h.2.1⟩

/-- C2: in every sequentially reachable state at most one counter
document exists and `total_views` equals the number of session records;
one heartbeat each from two distinct visitors on the empty store yields
two session records and `total_views = 2`; and `total_views` never
decreases under a heartbeat (nor under `get_stats`, which does not write). -/
theorem counter_matches_sessions (st : Store) (h : Reachable st)
    (v1 v2 : String) (t1 t2 : Int) (hne : v1 ≠ v2) :
    st.sitestat.length ≤ 1 ∧
    totalViews st = (st.session.length : Int) ∧
    (heartbeat v2 t2 (heartbeat v1 t1 emptyStore)).session.length = 2 ∧
    totalViews (heartbeat v2 t2 (heartbeat v1 t1 emptyStore)) = 2 ∧
    ∀ v t, totalViews st ≤ totalViews (heartbeat v t st) := by
  obtain ⟨hlen, hkeys, htot, hcnt⟩ := reachable_storeInv st h
  have hst1 : heartbeat v1 t1 emptyStore =
      ⟨[⟨v1, t1, t1⟩], [⟨"global", 1, t1⟩]⟩ := rfl
  have hfind : findSession v2 (heartbeat v1 t1 emptyStore) = none := by
    rw [hst1]
    show List.find? _ _ = none
    rw [List.find?_cons_of_neg _ (by simpa using hne)]
    rfl
  have hglob : totalOf [⟨"global", 1, t1⟩] = 1 := by
    unfold totalOf
    rw [List.find?_cons_of_pos _ (by simp)]
  have htv1 : totalViews (heartbeat v1 t1 emptyStore) = 1 := by
    rw [hst1]
    show totalOf [⟨"global", 1, t1⟩] = 1
    exact hglob
  have hlen2 : (heartbeat v2 t2 (heartbeat v1 t1 emptyStore)).session.length = 2 := by
    rw [length_heartbeat_session, if_pos hfind, hst1]
    rfl
  have htv2 : totalViews (heartbeat v2 t2 (heartbeat v1 t1 emptyStore)) = 2 := by
    rw [totalViews_heartbeat_fresh v2 t2 _ hfind, htv1]
    norm_num
  exact ⟨hlen, htot, hlen2, htv2, fun v t => totalViews_heartbeat_mono v t st⟩

/-- C2 witness: the invariant instantiated on a reachable one-heartbeat
state and on the concrete two-visitor scenario. -/
theorem counter_matches_sessions_witness :
    (heartbeat "a" 0 emptyStore).sitestat.length ≤ 1 ∧
    totalViews (heartbeat "y" 2 (heartbeat "x" 1 emptyStore)) = 2 := by
  have h := counter_matches_sessions (heartbeat "a" 0 emptyStore)
    (Reachable.step "a" 0 Reachable.empty) "x" "y" 1 2 (by decide)
  exact ⟨h.1, h.2.2.2.1⟩

/-- C3 counterexample: a heartbeat whose `visitor_id` is the empty string
is not rejected — pydantic's `visitor_id: str` admits `""`, the request
succeeds, a session record is created and the counter incremented, so
the store does not stay unchanged. -/
theorem empty_visitor_id_accepted :
    heartbeatEndpoint (some "") 0 emptyStore =
      .ok (heartbeat "" 0 emptyStore) ∧
    heartbeat "" 0 emptyStore ≠ emptyStore ∧
    countSessions "" (heartbeat "" 0 emptyStore) = 1 ∧
    totalViews (heartbeat "" 0 emptyStore) = 1 := by
  refine ⟨rfl, by decide, by decide, by decide⟩

/-- C3 amended: a request with `visitor_id` missing fails with
`InvalidInput` (pydantic validation) and no handler code runs, but an
empty-string `visitor_id` passes validation and is processed like any
other first-seen visitor: a session is created and the counter
incremented. -/
theorem heartbeat_missing_visitor_rejected (t : Int) (st : Store) :
    heartbeatEndpoint none t st = .error .invalidInput ∧
    heartbeatEndpoint (some "") t st = .ok (heartbeat "" t st) ∧
    (countSessions "" st = 0 →
      countSessions "" (heartbeat "" t st) = 1 ∧
      totalViews (heartbeat "" t st) = totalViews st + 1) := by
  refine ⟨rfl, rfl, fun h => ?_⟩
  have h0 : findSession "" st = none := (findSession_eq_none_iff _ st).mpr h
  constructor
  · rw [countSessions_heartbeat_self, h]
    omega
  · exact totalViews_heartbeat_fresh _ t st h0

/-- C3 amended witness: instantiated on the empty store. -/
theorem heartbeat_missing_visitor_rejected_witness :
    heartbeatEndpoint none 0 emptyStore = .error .invalidInput ∧
    countSessions "" (heartbeat "" 0 emptyStore) = 1 := by
  have h := heartbeat_missing_visitor_rejected 0 emptyStore
  exact ⟨h.1, (h.2.2 (by decide)).1⟩

/-- C4: `active` counts exactly the sessions with `last_seen ≥ now −
window`, and the boundary is inclusive — a session at `last_seen = now −
window` is active while one at `last_seen = now − window − 1` is not. -/
theorem active_window_boundary (st : Store) (now w : Int) :
    (get_stats w now st).1 =
      ((st.session.filter (fun s => now - w ≤ s.last_seen)).length : Int) ∧
    (∀ vid ca ss, (get_stats w now ⟨[⟨vid, now - w, ca⟩], ss⟩).1 = 1) ∧
    (∀ vid ca ss, (get_stats w now ⟨[⟨vid, now - w - 1, ca⟩], ss⟩).1 = 0) := by
  refine ⟨rfl, ?_, ?_⟩
  · intro vid ca ss
    simp [get_stats]
  · intro vid ca ss
    simp [get_stats]
    omega

/-- C5: `GetStats` on the empty store returns `(0, 0)`, and whenever no
counter document keyed `"global"` exists the returned total is 0 rather
than an error; both fields are always produced by construction. -/
theorem get_stats_cold_start (w now : Int) (st : Store)
    (h : st.sitestat.find? (fun d => d.key = "global") = none) :
    get_stats w now emptyStore = (0, 0) ∧ (get_stats w now st).2 = 0 := by
  refine ⟨rfl, ?_⟩
  simp [get_stats, h]

/-- C5 witness: a store with sessions but a non-global stat document
still reports total 0. -/
theorem get_stats_cold_start_witness :
    get_stats 120 0 emptyStore = (0, 0) ∧
    (get_stats 120 0 ⟨[], [⟨"other", 7, 0⟩]⟩).2 = 0 := by
  have h := get_stats_cold_start 120 0 ⟨[], [⟨"other", 7, 0⟩]⟩ (by decide)
  exact ⟨h.1, h.2⟩

/-- C6: `created_at` is written exactly once — the first heartbeat for a
visitor stores both timestamps equal to the current time, and every
later heartbeat rewrites only `last_seen`, keeping the stored
`created_at` and the `visitor_id` key. -/
theorem created_at_set_once (v : String) (t : Int) (st : Store) :
    (findSession v st = none →
      findSession v (heartbeat v t st) = some ⟨v, t, t⟩) ∧
    (∀ s, findSession v st = some s →
      findSession v (heartbeat v t st) = some ⟨v, t, s.created_at⟩ ∧
      s.visitor_id = v) := by
  constructor
  · intro h
    show (sessionUpsert v t st.session).find? _ = _
    rw [find_sessionUpsert_self,
      show st.session.find? (fun s => s.visitor_id = v) = none from h]
  · intro s hs
    refine ⟨?_, ?_⟩
    · show (sessionUpsert v t st.session).find? _ = _
      rw [find_sessionUpsert_self,
        show st.session.find? (fun s => s.visitor_id = v) = some s from hs]
    · simpa using List.find?_some hs

/-- C6 witness: a second heartbeat at time 5 keeps the `created_at`
stamp 3 written by the first heartbeat. -/
theorem created_at_set_once_witness :
    findSession "a" (heartbeat "a" 5 (heartbeat "a" 3 emptyStore)) =
      some ⟨"a", 5, 3⟩ := by
  have h := created_at_set_once "a" 5 (heartbeat "a" 3 emptyStore)
  exact (h.2 ⟨"a", 3, 3⟩ (by decide)).1

/-- C7: `get_stats` is a pure read — the store it leaves behind is
exactly the store it was given, and its result is a function of that
store alone. -/
theorem get_stats_pure_read (w now : Int) (st : Store) :
    (get_statsOp w now st).1 = st ∧
    (get_statsOp w now st).2 = get_stats w now st :=
  ⟨rfl, rfl⟩

/-- C8: two concurrent first-ever heartbeats for the same visitor, under
the schedule A-read, B-read, A-upsert, A-increment, B-upsert,
B-increment, both observe no prior session and both increment the
counter: the run finishes with one session record but `total_views = 2`,
exhibiting that the read and the upsert/increment are not one atomic
step. -/
theorem same_visitor_race_overcounts (v : String) (t1 t2 : Int) :
    (raceRun v t1 t2 [true, false, true, true, false, false]
      emptyStore).a.pc = Pc.finished ∧
    (raceRun v t1 t2 [true, false, true, true, false, false]
      emptyStore).b.pc = Pc.finished ∧
    (raceRun v t1 t2 [true, false, true, true, false, false]
      emptyStore).a.prev = none ∧
    (raceRun v t1 t2 [true, false, true, true, false, false]
      emptyStore).b.prev = none ∧
    (raceRun v t1 t2 [true, false, true, true, false, false]
      emptyStore).store.session.length = 1 ∧
    countSessions v (raceRun v t1 t2 [true, false, true, true, false, false]
      emptyStore).store = 1 ∧
    totalViews (raceRun v t1 t2 [true, false, true, true, false, false]
      emptyStore).store = 2 := by
  simp [raceRun, raceStep, reqStep, emptyStore, sessionUpsert, sitestatInc,
    countSessions, totalViews, totalOf, List.foldl]

/-- C9: `get_stats` performs no validation of the window — any integer is
accepted, the cutoff is always `now − window_seconds`, under a negative
window every counted session has `last_seen` strictly after `now`, and
an omitted window defaults to 120 seconds. -/
theorem get_stats_window_unvalidated (st : Store) (now w : Int) :
    (get_stats w now st).1 =
      ((st.session.filter (fun s => now - w ≤ s.last_seen)).length : Int) ∧
    (w < 0 → ∀ s ∈ st.session, now - w ≤ s.last_seen → now < s.last_seen) ∧
    get_statsDefault now st = get_stats 120 now st := by
  refine ⟨rfl, ?_, rfl⟩
  intro hw s _ hle
  omega

/-- C9 witness: with window −5 and now 0, the counted session stamped 7
is indeed strictly after now. -/
theorem get_stats_window_unvalidated_witness : (0 : Int) < 7 := by
  have h := get_stats_window_unvalidated ⟨[⟨"a", 7, 7⟩], []⟩ 0 (-5)
  exact h.2.1 (by decide) ⟨"a", 7, 7⟩ (by decide) (by decide)

/-- C10: every session record written by a heartbeat satisfies
`created_at ≤ last_seen` — a fresh insert writes the two fields equal,
and with a clock that has not gone backwards a repeat heartbeat only
moves `last_seen` forward, preserving the inequality store-wide. -/
theorem created_at_le_last_seen (v : String) (t : Int) (st : Store)
    (hinv : ∀ s ∈ st.session, s.created_at ≤ s.last_seen)
    (hclock : ∀ s ∈ st.session, s.last_seen ≤ t) :
    (∀ s ∈ (heartbeat v t st).session, s.created_at ≤ s.last_seen) ∧
    (∀ s ∈ (heartbeat v t st).session, s.last_seen ≤ t) ∧
    (findSession v st = none →
      findSession v (heartbeat v t st) = some ⟨v, t, t⟩) := by
  have key : ∀ s ∈ (heartbeat v t st).session,
      s.created_at ≤ s.last_seen ∧ s.last_seen ≤ t := by
    intro s hs
    rw [heartbeat_session] at hs
    rcases mem_sessionUpsert v t st.session s hs with h1 | ⟨d, hd, rfl⟩ | h3
    · subst h1
      exact ⟨le_refl t, le_refl t⟩
    · exact ⟨(hinv d hd).trans (hclock d hd), le_refl t⟩
    · exact ⟨hinv s h3, hclock s h3⟩
  refine ⟨fun s hs => (key s hs).1, fun s hs => (key s hs).2, fun h => ?_⟩
  show (sessionUpsert v t st.session).find? _ = _
  rw [find_sessionUpsert_self,
    show st.session.find? (fun s => s.visitor_id = v) = none from h]

/-- C10 witness: the record left by a later heartbeat at time 5 over a
record created at 1 still satisfies `created_at ≤ last_seen`. -/
theorem created_at_le_last_seen_witness : (1 : Int) ≤ 5 := by
  have h := created_at_le_last_seen "a" 5 ⟨[⟨"a", 3, 1⟩], []⟩
    (by decide) (by decide)
  exact h.1 ⟨"a", 5, 1⟩ (by decide)

end Presence
